import Mathlib

/-!
Verification of the portfolio enrichment pipeline of the AI-Portfolio-Assistant
repository: the identifier resolver (`server/services/isin_resolver.py`), the
tiered price fetcher and the enrichment engine
(`server/services/enrich_portfolio.py`).

Modelling conventions:
* Python floats are modelled as exact rationals (`ℚ`); `round(x, 2)` is
  modelled by `round2` below.  All claims compare expressions built from the
  same rounding function, so the tie-breaking convention of `round` is
  irrelevant to the results.
* The external market-data provider (yfinance) is modelled as an explicit
  environment `MarketEnv` mapping a symbol to the outcome of each data source:
  `none` models an exception / missing object, `some` a structured answer.
* Python's string operations used by the code (`strip`, `upper`, `replace`,
  `endswith`) are re-implemented over `List Char` so that every definition is
  executable by the kernel; they agree with Python on the ASCII data the
  pipeline handles.
* The equity ISIN table (`isin_mapping.json`) is a runtime data file, so the
  resolver takes it as an explicit association-list parameter.
-/

namespace AIPortfolio

/-! ## Numeric helper: rounding to 2 decimal places -/

/-- Model of Python's `round(x, 2)` on exact rationals. -/
def round2 (x : ℚ) : ℚ := ((round (x * 100) : ℤ) : ℚ) / 100

/-! ## String helpers (models of the Python string methods used) -/

/-- Model of Python's `str.strip()` (whitespace trimmed from both ends). -/
def pyStrip (s : String) : String :=
  ⟨((s.data.dropWhile Char.isWhitespace).reverse.dropWhile Char.isWhitespace).reverse⟩

/-- Model of Python's `str.upper()` (ASCII case mapping). -/
def pyUpper (s : String) : String :=
  ⟨s.data.map Char.toUpper⟩

/-- Model of Python's `str.endswith(t)`. -/
def hasSuffix (s t : String) : Bool :=
  decide (s.data.reverse.take t.data.length = t.data.reverse)

/-- Replace every (leftmost, non-overlapping) occurrence of `pat` in the char
list, continuing after each inserted replacement, exactly as Python's
`str.replace`.  The `Nat` argument is fuel; it is always at least the length
of the list being processed, so the base case is reached only at `[]`. -/
def replaceAllAux : Nat → List Char → List Char → List Char → List Char
  | 0, l, _, _ => l
  | Nat.succ n, l, pat, rep =>
    if !pat.isEmpty && pat.isPrefixOf l then
      rep ++ replaceAllAux n (l.drop pat.length) pat rep
    else
      match l with
      | [] => []
      | c :: cs => c :: replaceAllAux n cs pat rep

/-- Model of Python's `s.replace(pat, rep)` (all occurrences). -/
def replaceAll (s pat rep : String) : String :=
  ⟨replaceAllAux s.data.length s.data pat.data rep.data⟩

/-! ## Identifier resolver (`isin_resolver.py`) -/

/-- Association-list lookup, modelling Python `dict` lookup for our tables. -/
def lookupTable : List (String × String) → String → Option String
  | [], _ => none
  | (k, v) :: rest, key => if key = k then some v else lookupTable rest key

/-- `TICKER_FIXES` from `isin_resolver.py`: curated correction table for
common extraction mistakes. -/
def TICKER_FIXES : List (String × String) :=
  [("ART", "ANANDRATHI"),
   ("BARODA", "BANKBARODA"),
   ("BOB", "BANKBARODA"),
   ("CANB", "CANBK"),
   ("JFS", "JIOFIN"),
   ("JIOFINANCE", "JIOFIN"),
   ("ONE97", "PAYTM"),
   ("LIC", "LICI"),
   ("BHSL", "BAJAJHIND"),
   ("BFIL", "BALUFORGE"),
   ("AZE", "AZAD"),
   ("ETNL", "ETERNAL"),
   ("MOFSL", "MOTILALOFS"),
   ("NSDL", "NSDL"),
   ("ARATHI", "ANANDRATHI")]

/-- `ETF_MAPPING` from `isin_resolver.py`: curated ISIN → full-symbol table
for ETFs/funds (values already carry the `.NS` suffix). -/
def ETF_MAPPING : List (String × String) :=
  [("INF247L01DJ0", "MODEFENCE.NS"),
   ("INF247L01EV3", "MOCAPITAL.NS"),
   ("INF204KB17I5", "GOLDBEES.NS"),
   ("INF204KC1402", "SILVERBEES.NS")]

/-- The hint normalisation performed inside `resolve_ticker`:
`ticker_hint.strip().upper().replace(".NS", "").replace(".BO", "")`.
Note that `replace` removes every occurrence, not only a trailing suffix. -/
def normalize_hint (hint : String) : String :=
  replaceAll (replaceAll (pyUpper (pyStrip hint)) ".NS" "") ".BO" ""

/-- `resolve_ticker` from `isin_resolver.py`.  `mapping` is the equity
ISIN table loaded from `isin_mapping.json` (a runtime data file, hence a
parameter).  `none`/`some ""` model Python falsy identifier values. -/
def resolve_ticker (mapping : List (String × String))
    (isin ticker_hint : Option String) : Option String :=
  let isinVal := isin.getD ""
  if isinVal ≠ "" ∧ (lookupTable ETF_MAPPING isinVal).isSome then
    lookupTable ETF_MAPPING isinVal
  else if isinVal ≠ "" ∧ (lookupTable mapping isinVal).isSome then
    lookupTable mapping isinVal
  else
    match ticker_hint with
    | some h =>
      if h ≠ "" then
        let clean := normalize_hint h
        match lookupTable TICKER_FIXES clean with
        | some fix => some fix
        | none => some clean
      else none
    | none => none

/-- `get_yfinance_symbol` from `isin_resolver.py`. -/
def get_yfinance_symbol (ticker : String) : String :=
  if ticker = "" then ""
  else if hasSuffix ticker ".NS" || hasSuffix ticker ".BO" then ticker
  else ticker ++ ".NS"

/-! ## Price fetcher (`get_latest_price` in `enrich_portfolio.py`) -/

/-- The external market-data provider, per symbol:
* `info s`: outcome of `yf.Ticker(s).info` — `none` models an exception or a
  falsy object; `some fields` gives the values of
  `['regularMarketPrice', 'currentPrice', 'previousClose']` in that order
  (`none` inside the list = field missing).
* `fast s`: outcome of `stock.fast_info`, values of
  `['lastPrice', 'previousClose', 'regularMarketPrice']`.
* `hist s`: outcome of `stock.history(period="5d")` — `none` models an
  exception, `some closes` the `Close` column (`[]` = empty frame). -/
structure MarketEnv where
  info : String → Option (List (Option ℚ))
  fast : String → Option (List (Option ℚ))
  hist : String → Option (List ℚ)

/-- First field value that passes Python's `if price and price > 0` check. -/
def firstPositive : List (Option ℚ) → Option ℚ
  | [] => none
  | none :: rest => firstPositive rest
  | some p :: rest => if 0 < p then some p else firstPositive rest

/-- Price accepted from source 1 (the `stock.info` quote fields), if any. -/
def infoPrice (env : MarketEnv) (symbol : String) : Option ℚ :=
  (env.info symbol).bind firstPositive

/-- Price accepted from source 2 (the `stock.fast_info` cached quote). -/
def fastPrice (env : MarketEnv) (symbol : String) : Option ℚ :=
  (env.fast symbol).bind firstPositive

/-- Price accepted from source 3 (last close of the 5-day history). -/
def histPrice (env : MarketEnv) (symbol : String) : Option ℚ :=
  (env.hist symbol).bind fun closes =>
    match closes.getLast? with
    | some p => if 0 < p then some p else none
    | none => none

/-- `get_latest_price` from `enrich_portfolio.py`: tiered fetch with the
`.BO` history retry and the `(fallback, False)` total-failure result.
The local `symbol = get_yfinance_symbol(ticker)` of the Python code is
inlined. -/
def get_latest_price (env : MarketEnv) (ticker : String)
    (fallback_price : ℚ) : ℚ × Bool :=
  if ticker = "" ∨ ticker = "UNKNOWN" then (fallback_price, false)
  else
    match infoPrice env (get_yfinance_symbol ticker) with
    | some p => (round2 p, true)
    | none =>
      match fastPrice env (get_yfinance_symbol ticker) with
      | some p => (round2 p, true)
      | none =>
        match histPrice env (get_yfinance_symbol ticker) with
        | some p => (round2 p, true)
        | none =>
          if hasSuffix (get_yfinance_symbol ticker) ".NS" then
            match histPrice env (replaceAll (get_yfinance_symbol ticker) ".NS" ".BO") with
            | some p => (round2 p, true)
            | none => (fallback_price, false)
          else (fallback_price, false)

/-! ## Enrichment engine (`enrich_portfolio` in `enrich_portfolio.py`) -/

/-- One holding record (the dict fields read or written by the pipeline).
Missing numeric dict entries are modelled as `0`, missing strings as `""`,
matching the `item.get(key, default)` accesses in the code. -/
structure Holding where
  stock_name : String
  isin : String
  ticker_symbol : String
  sector : String
  quantity : ℚ
  avg_buy_price : ℚ
  buy_price : ℚ
  invested_value : ℚ
  current_price : ℚ
  current_value : ℚ
  pnl_absolute : ℚ
  pnl_percentage : ℚ
deriving DecidableEq, Repr

/-- The portfolio dict: holdings plus the four totals written by enrichment.
`extra` stands for all other keys of the dict, which enrichment never
touches. -/
structure Portfolio where
  holdings : List Holding
  extra : String
  total_investment : ℚ
  total_current_value : ℚ
  total_pnl : ℚ
  total_pnl_percentage : ℚ
deriving DecidableEq, Repr

/-- `float(item.get('avg_buy_price', 0) or item.get('buy_price', 0))`:
the alternate field is used when the primary is falsy (zero/missing). -/
def effAvgBuyPrice (h : Holding) : ℚ :=
  if h.avg_buy_price = 0 then h.buy_price else h.avg_buy_price

/-- `invested_value`, derived as `quantity * avg_buy_price` when the stored
field is zero/missing. -/
def rawInvested (h : Holding) : ℚ :=
  if h.invested_value = 0 then h.quantity * effAvgBuyPrice h else h.invested_value

/-- The local `current_price` of the loop body: the price returned by the
fetcher, before the final 2-decimal store. -/
def fetchedPrice (env : MarketEnv) (h : Holding) : ℚ :=
  (get_latest_price env h.ticker_symbol (effAvgBuyPrice h)).1

/-- The local `current_value = quantity * current_price` of the loop body,
before the final 2-decimal store. -/
def rawCurrentValue (env : MarketEnv) (h : Holding) : ℚ :=
  h.quantity * fetchedPrice env h

/-- The loop body of `enrich_portfolio` for one holding: the five field
writes `item['...'] = round(..., 2)`. -/
def enrichHolding (env : MarketEnv) (h : Holding) : Holding :=
  { h with
      current_price := round2 (fetchedPrice env h)
      current_value := round2 (rawCurrentValue env h)
      invested_value := round2 (rawInvested h)
      pnl_absolute := round2 (rawCurrentValue env h - rawInvested h)
      pnl_percentage := round2
        (if 0 < effAvgBuyPrice h then
          (fetchedPrice env h - effAvgBuyPrice h) / effAvgBuyPrice h * 100
        else 0) }

/-- `enrich_portfolio` from `enrich_portfolio.py`.  The loop accumulators
`total_investment` and `total_current_value` (which add up the unrounded
per-holding `invested_value` and `current_value` in order) are rendered as
the list sums of those per-holding values. -/
def enrich_portfolio (env : MarketEnv) (data : Portfolio) : Portfolio :=
  { data with
      holdings := data.holdings.map (enrichHolding env)
      total_investment := round2 (data.holdings.map rawInvested).sum
      total_current_value := round2 (data.holdings.map (rawCurrentValue env)).sum
      total_pnl := round2
        ((data.holdings.map (rawCurrentValue env)).sum -
          (data.holdings.map rawInvested).sum)
      total_pnl_percentage := round2
        (if 0 < (data.holdings.map rawInvested).sum then
          ((data.holdings.map (rawCurrentValue env)).sum -
              (data.holdings.map rawInvested).sum) /
            (data.holdings.map rawInvested).sum * 100
        else 0) }

/-! ## Auxiliary definitions for the claims -/

/-- Rendering of the SPEC's wording of hint normalisation, for comparison
with the code's `normalize_hint`: trim whitespace, uppercase, then strip a
known exchange suffix (`.NS`/`.BO`) from the END of the hint. -/
def specNormalizeHint (hint : String) : String :=
  let u := pyUpper (pyStrip hint)
  if hasSuffix u ".NS" || hasSuffix u ".BO" then ⟨u.data.take (u.data.length - 3)⟩
  else u

/-- The holding fields `enrich_portfolio` never writes. -/
def frameFields (h : Holding) : String × String × String × String × ℚ × ℚ × ℚ :=
  (h.stock_name, h.isin, h.ticker_symbol, h.sector, h.quantity,
    h.avg_buy_price, h.buy_price)

/-- A market environment in which every source fails for every symbol. -/
def env0 : MarketEnv := ⟨fun _ => none, fun _ => none, fun _ => none⟩

/-- A holding with every numeric field zero and every string empty; concrete
test holdings below override the fields they care about. -/
def baseHolding : Holding :=
  { stock_name := "", isin := "", ticker_symbol := "", sector := ""
    quantity := 0, avg_buy_price := 0, buy_price := 0, invested_value := 0
    current_price := 0, current_value := 0, pnl_absolute := 0
    pnl_percentage := 0 }

/-- A portfolio around a single holding, with no pre-existing totals. -/
def singletonPortfolio (h : Holding) : Portfolio :=
  { holdings := [h], extra := "", total_investment := 0
    total_current_value := 0, total_pnl := 0, total_pnl_percentage := 0 }

/-- C1 counterexample input: the fetch fails and the fallback
`avg_buy_price` has three decimal places. -/
def pC1 : Portfolio :=
  singletonPortfolio
    { baseHolding with ticker_symbol := "UNKNOWN", quantity := 10
                       avg_buy_price := 1234/1000 }

/-- C1 witness input: fetch fails, but the fallback has two decimals. -/
def hW1 : Holding :=
  { baseHolding with ticker_symbol := "UNKNOWN", quantity := 10
                     avg_buy_price := 50 }

/-- Environment for the C4 counterexample: source 1 answers with only
missing and non-positive fields, source 2 with a 3-decimal price. -/
def cexEnv4 : MarketEnv :=
  ⟨fun s => if s = "X.NS" then some [none, some (-5), some 0] else none,
   fun s => if s = "X.NS" then some [some (1234/1000)] else none,
   fun _ => none⟩

/-- Environment for the C4 witness: source 1 answers with only missing and
non-positive fields, source 2 with the price 45. -/
def envW4 : MarketEnv :=
  ⟨fun s => if s = "TCS.NS" then some [some (-1), none, some 0] else none,
   fun s => if s = "TCS.NS" then some [none, some 45] else none,
   fun _ => none⟩

/-- Environment for the C5 counterexample: every source for `X.NS` fails,
and on `X.BO` the live-quote and cached-quote sources would answer but the
history source fails. -/
def cexEnv5 : MarketEnv :=
  ⟨fun s => if s = "X.BO" then some [some 50] else none,
   fun s => if s = "X.BO" then some [some 50] else none,
   fun _ => none⟩

/-- Environment for the C5 witness: only the `.BO` history answers. -/
def envW5 : MarketEnv :=
  ⟨fun _ => none, fun _ => none,
   fun s => if s = "INFY.BO" then some [99] else none⟩

/-- C7 witness input: effective average buy price and total investment are
both zero. -/
def hW7 : Holding := { baseHolding with ticker_symbol := "UNKNOWN", quantity := 5 }

/-- C8 counterexample input: fetch fails; the raw `current_value` (1.006)
and `invested_value` (0.004) both have a third decimal. -/
def pC8 : Portfolio :=
  singletonPortfolio
    { baseHolding with ticker_symbol := "UNKNOWN", quantity := 1
                       avg_buy_price := 1006/1000, invested_value := 4/1000 }

/-- C8 witness input: raw current and invested values are exact cents. -/
def hW8 : Holding :=
  { baseHolding with ticker_symbol := "UNKNOWN", quantity := 2
                     avg_buy_price := 50 }

/-! ## Helper lemmas -/

section Lemmas

attribute [local semireducible] Rat.mul Rat.add Rat.sub Rat.inv

theorem round2_idem (x : ℚ) : round2 (round2 x) = round2 x := by
  unfold round2
  rw [div_mul_cancel₀ _ (by norm_num : (100 : ℚ) ≠ 0), round_intCast]

theorem round2_zero : round2 0 = 0 := by
  unfold round2
  norm_num

theorem strData_append (s t : String) : (s ++ t).data = s.data ++ t.data := by
  cases s
  cases t
  rfl

theorem hasSuffix_append (s t : String) : hasSuffix (s ++ t) t = true := by
  unfold hasSuffix
  rw [decide_eq_true_iff, strData_append, List.reverse_append]
  calc (t.data.reverse ++ s.data.reverse).take t.data.length
      = (t.data.reverse ++ s.data.reverse).take t.data.reverse.length := by
        rw [List.length_reverse]
    _ = t.data.reverse := List.take_left _ _

theorem append_str_ne_empty (s t : String) (h : t.data ≠ []) : s ++ t ≠ "" := by
  intro he
  have hd := congrArg String.data he
  rw [strData_append] at hd
  have : s.data = [] ∧ t.data = [] := List.append_eq_nil.mp hd
  exact h this.2

theorem get_yfinance_symbol_of_suffix (x : String)
    (hx : x ≠ "") (h : hasSuffix x ".NS" = true ∨ hasSuffix x ".BO" = true) :
    get_yfinance_symbol x = x := by
  unfold get_yfinance_symbol
  rw [if_neg hx, if_pos]
  rcases h with h | h <;> simp [h]

theorem get_yfinance_symbol_no_suffix (x : String) (hx : x ≠ "")
    (h1 : hasSuffix x ".NS" = false) (h2 : hasSuffix x ".BO" = false) :
    get_yfinance_symbol x = x ++ ".NS" := by
  unfold get_yfinance_symbol
  rw [if_neg hx, if_neg]
  rw [h1, h2]
  simp

theorem firstPositive_eq_none (l : List (Option ℚ))
    (h : ∀ o ∈ l, o.getD 0 ≤ 0) : firstPositive l = none := by
  induction l with
  | nil => rfl
  | cons o rest ih =>
    have hrest : firstPositive rest = none :=
      ih fun o ho => h o (List.mem_cons_of_mem _ ho)
    match o with
    | none => simpa [firstPositive] using hrest
    | some q =>
      have hq : q ≤ 0 := by simpa using h (some q) (List.mem_cons_self _ _)
      rw [firstPositive, if_neg (by exact absurd · (not_lt.mpr hq))]
      exact hrest

theorem get_latest_price_cases (env : MarketEnv) (t : String) (f : ℚ) :
    (∃ p, get_latest_price env t f = (round2 p, true)) ∨
      get_latest_price env t f = (f, false) := by
  unfold get_latest_price
  by_cases hc : t = "" ∨ t = "UNKNOWN"
  · rw [if_pos hc]
    exact Or.inr rfl
  · rw [if_neg hc]
    rcases h1 : infoPrice env (get_yfinance_symbol t) with _ | p
    · rcases h2 : fastPrice env (get_yfinance_symbol t) with _ | p
      · rcases h3 : histPrice env (get_yfinance_symbol t) with _ | p
        · by_cases hs : hasSuffix (get_yfinance_symbol t) ".NS" = true
          · rcases h4 : histPrice env
                (replaceAll (get_yfinance_symbol t) ".NS" ".BO") with _ | p
            · simp [hs, h4]
            · exact Or.inl ⟨p, by simp [hs, h4]⟩
          · simp [hs]
        · exact Or.inl ⟨p, by simp⟩
      · exact Or.inl ⟨p, by simp⟩
    · exact Or.inl ⟨p, rfl⟩

theorem round2_fetched (env : MarketEnv) (t : String) (f : ℚ)
    (h : (get_latest_price env t f).2 = true ∨ round2 f = f) :
    round2 (get_latest_price env t f).1 = (get_latest_price env t f).1 := by
  rcases get_latest_price_cases env t f with ⟨p, hp⟩ | hp
  · rw [hp]
    exact round2_idem p
  · rw [hp]
    rcases h with h | h
    · rw [hp] at h
      exact absurd h (by simp)
    · exact h

theorem round2_fetchedPrice (env : MarketEnv) (h : Holding)
    (hyp : (get_latest_price env h.ticker_symbol (effAvgBuyPrice h)).2 = true ∨
      round2 (effAvgBuyPrice h) = effAvgBuyPrice h) :
    round2 (fetchedPrice env h) = fetchedPrice env h :=
  round2_fetched env h.ticker_symbol (effAvgBuyPrice h) hyp

theorem mem_enriched_holdings (env : MarketEnv) (data : Portfolio)
    (h0 : Holding) (hmem : h0 ∈ data.holdings) :
    enrichHolding env h0 ∈ (enrich_portfolio env data).holdings :=
  List.mem_map_of_mem (enrichHolding env) hmem

/-! ## Claim C9: idempotence and suffix behaviour of `get_yfinance_symbol` -/

/-- C9 counterexample: the claim says a ticker without a recognized suffix
gets `.NS` appended, but the code maps the empty string (which carries no
recognized suffix) to the empty string, not to `".NS"`. -/
theorem C9_counterexample :
    get_yfinance_symbol "" = "" ∧
    hasSuffix "" ".NS" = false ∧ hasSuffix "" ".BO" = false ∧
    ("" : String) ≠ "" ++ ".NS" := by
  decide

/-- C9 (amended): `get_yfinance_symbol` is idempotent on every string; a
ticker carrying a recognized suffix (`.NS`/`.BO`) is returned unchanged; a
NON-EMPTY ticker without a recognized suffix gets `.NS` appended; the empty
string maps to the empty string. -/
theorem C9_amended :
    (∀ x : String,
      get_yfinance_symbol (get_yfinance_symbol x) = get_yfinance_symbol x) ∧
    (∀ x : String,
      (hasSuffix x ".NS" = true ∨ hasSuffix x ".BO" = true) →
      get_yfinance_symbol x = x) ∧
    (∀ x : String, x ≠ "" → hasSuffix x ".NS" = false →
      hasSuffix x ".BO" = false → get_yfinance_symbol x = x ++ ".NS") ∧
    get_yfinance_symbol "" = "" := by
  have hsuf : ∀ x : String,
      (hasSuffix x ".NS" = true ∨ hasSuffix x ".BO" = true) →
      get_yfinance_symbol x = x := by
    intro x h
    have hx : x ≠ "" := by
      rintro rfl
      rcases h with h | h <;> exact absurd h (by decide)
    exact get_yfinance_symbol_of_suffix x hx h
  refine ⟨?_, hsuf, get_yfinance_symbol_no_suffix, by decide⟩
  intro x
  by_cases hx : x = ""
  · subst hx
    decide
  · cases hNS : hasSuffix x ".NS" with
    | true =>
      rw [get_yfinance_symbol_of_suffix x hx (Or.inl hNS)]
      exact get_yfinance_symbol_of_suffix x hx (Or.inl hNS)
    | false =>
      cases hBO : hasSuffix x ".BO" with
      | true =>
        rw [get_yfinance_symbol_of_suffix x hx (Or.inr hBO)]
        exact get_yfinance_symbol_of_suffix x hx (Or.inr hBO)
      | false =>
        rw [get_yfinance_symbol_no_suffix x hx hNS hBO]
        exact get_yfinance_symbol_of_suffix (x ++ ".NS")
          (append_str_ne_empty x ".NS" (by decide))
          (Or.inl (hasSuffix_append x ".NS"))

/-- C9 witness: the amended claim applied at the suffixed ticker
`"INFY.BO"` and the plain root ticker `"TCS"`. -/
theorem C9_witness :
    get_yfinance_symbol "INFY.BO" = "INFY.BO" ∧
    get_yfinance_symbol "TCS" = "TCS" ++ ".NS" :=
  ⟨C9_amended.2.1 "INFY.BO" (Or.inr (by decide)),
   C9_amended.2.2.1 "TCS" (by decide) (by decide) (by decide)⟩

/-! ## Claim C3: fund-table precedence in `resolve_ticker` -/

/-- C3: an ISIN found in `ETF_MAPPING` resolves to the fund-table entry, no
matter what the equity table (`mapping`) holds for it and no matter the
ticker hint; in particular `"INF204KB17I5"` resolves to `"GOLDBEES.NS"`. -/
theorem C3_fund_precedence (mapping : List (String × String)) (isin v : String)
    (hint : Option String) (h : lookupTable ETF_MAPPING isin = some v) :
    resolve_ticker mapping (some isin) hint = some v ∧
    resolve_ticker mapping (some "INF204KB17I5") hint = some "GOLDBEES.NS" := by
  have hne : isin ≠ "" := by
    rintro rfl
    rw [show lookupTable ETF_MAPPING "" = none from by decide] at h
    exact Option.noConfusion h
  constructor
  · unfold resolve_ticker
    simp only [Option.getD_some]
    rw [if_pos ⟨hne, by rw [h]; rfl⟩]
    exact h
  · unfold resolve_ticker
    simp only [Option.getD_some]
    rw [if_pos ⟨by decide, by decide⟩]
    decide

/-- C3 witness: the equity table maps `"INF204KB17I5"` to a different
symbol, yet the fund table wins for it; shown with a second fund ISIN as
the generic instance. -/
theorem C3_witness :
    resolve_ticker [("INF204KB17I5", "TATAGOLD")] (some "INF204KC1402")
      (some "SLV") = some "SILVERBEES.NS" ∧
    resolve_ticker [("INF204KB17I5", "TATAGOLD")] (some "INF204KB17I5")
      (some "SLV") = some "GOLDBEES.NS" :=
  C3_fund_precedence [("INF204KB17I5", "TATAGOLD")] "INF204KC1402"
    "SILVERBEES.NS" (some "SLV") (by decide)

/-! ## Claim C6: hint normalisation in `resolve_ticker` -/

/-- Shared shape of the `ticker_hint` branch of `resolve_ticker`: with no
usable ISIN and a non-empty hint, the result is the correction-table entry
for the normalised hint, or the normalised hint itself. -/
theorem resolve_hint_branch (mapping : List (String × String))
    (isin : Option String) (hint : String) (hhint : hint ≠ "")
    (hisin : ∀ s, isin = some s →
      lookupTable ETF_MAPPING s = none ∧ lookupTable mapping s = none) :
    resolve_ticker mapping isin (some hint) =
      some (match lookupTable TICKER_FIXES (normalize_hint hint) with
            | some fix => fix
            | none => normalize_hint hint) := by
  cases isin with
  | none =>
    unfold resolve_ticker
    simp only [Option.getD_none]
    rw [if_neg (by simp), if_neg (by simp), if_pos hhint]
    rcases hl : lookupTable TICKER_FIXES (normalize_hint hint) with _ | fix <;>
      simp [hl]
  | some s =>
    obtain ⟨h1, h2⟩ := hisin s rfl
    unfold resolve_ticker
    simp only [Option.getD_some]
    rw [if_neg (by simp [h1]), if_neg (by simp [h2]), if_pos hhint]
    rcases hl : lookupTable TICKER_FIXES (normalize_hint hint) with _ | fix <;>
      simp [hl]

/-- C6 counterexample: the claim says normalisation strips a known exchange
suffix from the END of the hint, which would leave `"X.NSY"` unchanged (it
carries no trailing suffix, and has no correction entry); the code instead
removes the `.NS` occurring in the middle and returns `"XY"`. -/
theorem C6_counterexample :
    resolve_ticker [] none (some "X.NSY") = some "XY" ∧
    specNormalizeHint "X.NSY" = "X.NSY" ∧
    lookupTable TICKER_FIXES "X.NSY" = none ∧
    ("XY" : String) ≠ "X.NSY" := by
  decide

/-- C6 (amended): with no ISIN match and a non-empty hint, `resolve_ticker`
returns the correction-table entry for the normalised hint when present and
otherwise the normalised hint, where normalisation trims whitespace,
uppercases, and removes EVERY occurrence of `.NS` and then of `.BO`
anywhere in the hint (not only a trailing suffix); in particular
`resolve_ticker` with hint `"BOB"` and no ISIN returns `"BANKBARODA"`. -/
theorem C6_amended (mapping : List (String × String)) (isin : Option String)
    (hint : String) (hhint : hint ≠ "")
    (hisin : ∀ s, isin = some s →
      lookupTable ETF_MAPPING s = none ∧ lookupTable mapping s = none) :
    resolve_ticker mapping isin (some hint) =
      some (match lookupTable TICKER_FIXES (normalize_hint hint) with
            | some fix => fix
            | none => normalize_hint hint) ∧
    resolve_ticker mapping none (some "BOB") = some "BANKBARODA" := by
  refine ⟨resolve_hint_branch mapping isin hint hhint hisin, ?_⟩
  rw [resolve_hint_branch mapping none "BOB" (by decide) (fun s hs => nomatch hs)]
  decide

/-- C6 witness: the amended claim applied at the hint `" bob.ns "` (which
exercises trimming, uppercasing and `.NS` removal) and at `"BOB"`. -/
theorem C6_witness :
    resolve_ticker [] none (some " bob.ns ") =
      some (match lookupTable TICKER_FIXES (normalize_hint " bob.ns ") with
            | some fix => fix
            | none => normalize_hint " bob.ns ") ∧
    resolve_ticker [] none (some "BOB") = some "BANKBARODA" :=
  C6_amended [] none " bob.ns " (by decide) (fun s hs => nomatch hs)

/-! ## Claim C2: total-failure and empty/UNKNOWN behaviour of the fetcher -/

/-- C2: if the ticker is empty or the sentinel `"UNKNOWN"`, or if every
source (the three tiers for the symbol and the `.BO` history retry) fails,
`get_latest_price` returns exactly `(fallback, false)`; the function is
total, so no exception reaches the caller. -/
theorem C2_total_failure (env : MarketEnv) (ticker : String) (fallback : ℚ) :
    (ticker = "" ∨ ticker = "UNKNOWN" →
      get_latest_price env ticker fallback = (fallback, false)) ∧
    (infoPrice env (get_yfinance_symbol ticker) = none →
      fastPrice env (get_yfinance_symbol ticker) = none →
      histPrice env (get_yfinance_symbol ticker) = none →
      histPrice env (replaceAll (get_yfinance_symbol ticker) ".NS" ".BO") = none →
      get_latest_price env ticker fallback = (fallback, false)) := by
  constructor
  · intro h
    unfold get_latest_price
    rw [if_pos h]
  · intro h1 h2 h3 h4
    unfold get_latest_price
    by_cases hc : ticker = "" ∨ ticker = "UNKNOWN"
    · rw [if_pos hc]
    · rw [if_neg hc]
      simp only [h1, h2, h3, h4]
      cases hs : hasSuffix (get_yfinance_symbol ticker) ".NS" <;> simp [hs]

/-- C2 witness: the `"UNKNOWN"` sentinel and an all-sources-fail
environment both yield `(fallback, false)`. -/
theorem C2_witness :
    get_latest_price env0 "UNKNOWN" 5 = (5, false) ∧
    get_latest_price env0 "TCS" 7 = (7, false) :=
  ⟨(C2_total_failure env0 "UNKNOWN" 5).1 (Or.inr rfl),
   (C2_total_failure env0 "TCS" 7).2 rfl rfl rfl rfl⟩

/-! ## Claim C4: fallback from source 1 to source 2 -/

/-- C4 counterexample: source 1 yields only missing/non-positive fields and
source 2 yields `p = 1.234`, but the result is `(1.23, true)`, the ROUNDED
source-2 price — not exactly `(p, true)` as the claim states. -/
theorem C4_counterexample :
    infoPrice cexEnv4 (get_yfinance_symbol "X") = none ∧
    fastPrice cexEnv4 (get_yfinance_symbol "X") = some (1234/1000) ∧
    get_latest_price cexEnv4 "X" 0 = (123/100, true) ∧
    get_latest_price cexEnv4 "X" 0 ≠ (1234/1000, true) := by
  decide

/-- C4 (amended): if the live-quote source answers with only missing or
non-positive fields and the cached-quote source yields the positive price
`p`, the fetcher returns `(round(p, 2), true)` — source 2's value rounded
to two decimals, with the success flag set. -/
theorem C4_amended (env : MarketEnv) (ticker : String) (fallback p : ℚ)
    (fields : List (Option ℚ))
    (ht : ¬(ticker = "" ∨ ticker = "UNKNOWN"))
    (hf : env.info (get_yfinance_symbol ticker) = some fields)
    (hall : ∀ o ∈ fields, o.getD 0 ≤ 0)
    (h2 : fastPrice env (get_yfinance_symbol ticker) = some p) :
    get_latest_price env ticker fallback = (round2 p, true) := by
  have h1 : infoPrice env (get_yfinance_symbol ticker) = none := by
    rw [infoPrice, hf]
    exact firstPositive_eq_none fields hall
  unfold get_latest_price
  rw [if_neg ht]
  simp only [h1, h2]

/-- C4 witness: the amended claim at a concrete environment where source 1
has only `-1`, missing and `0` fields and source 2 answers `45`. -/
theorem C4_witness : get_latest_price envW4 "TCS" 3 = (45, true) := by
  rw [C4_amended envW4 "TCS" 3 45 [some (-1), none, some 0]
    (by decide) (by decide) (by decide) (by decide)]
  decide

/-! ## Claim C5: the secondary-exchange retry -/

/-- C5 counterexample: every source for `X.NS` fails; on `X.BO` the
live-quote and cached-quote sources would answer `50`, yet the fetcher
falls back — it does NOT retry steps 1-3 on the `.BO` symbol, only the
history step (which fails here). -/
theorem C5_counterexample :
    infoPrice cexEnv5 "X.BO" = some 50 ∧
    fastPrice cexEnv5 "X.BO" = some 50 ∧
    get_latest_price cexEnv5 "X" 7 = (7, false) := by
  decide

/-- C5 (amended): when the formatted symbol ends in `.NS` and sources 1-3
fail for it, the fetcher retries ONLY step 3 (the 5-day-history close)
against the `.BO` symbol obtained by suffix substitution: its result is
exactly determined by that single `.BO` history lookup. -/
theorem C5_amended (env : MarketEnv) (ticker : String) (fallback : ℚ)
    (ht : ¬(ticker = "" ∨ ticker = "UNKNOWN"))
    (hsuf : hasSuffix (get_yfinance_symbol ticker) ".NS" = true)
    (h1 : infoPrice env (get_yfinance_symbol ticker) = none)
    (h2 : fastPrice env (get_yfinance_symbol ticker) = none)
    (h3 : histPrice env (get_yfinance_symbol ticker) = none) :
    get_latest_price env ticker fallback =
      match histPrice env (replaceAll (get_yfinance_symbol ticker) ".NS" ".BO") with
      | some p => (round2 p, true)
      | none => (fallback, false) := by
  unfold get_latest_price
  rw [if_neg ht]
  simp only [h1, h2, h3, hsuf, if_true]

/-- C5 witness: the amended claim at an environment where only the `.BO`
history answers (price 99). -/
theorem C5_witness : get_latest_price envW5 "INFY" 3 = (99, true) := by
  rw [C5_amended envW5 "INFY" 3 (by decide) (by decide) (by decide) (by decide)
    (by decide)]
  decide

/-! ## Claim C1: the stored `current_value` invariant -/

/-- C1 counterexample: quantity 10, fetch failed, fallback
`avg_buy_price = 1.234`.  The stored `current_value` is
`round(10 * 1.234, 2) = 12.34`, but `round(quantity * current_price, 2)`
over the STORED fields is `round(10 * 1.23, 2) = 12.3`. -/
theorem C1_counterexample :
    ¬ ∀ h ∈ (enrich_portfolio env0 pC1).holdings,
        h.current_value = round2 (h.quantity * h.current_price) := by
  decide

/-- C1 (amended): the stored `current_value` always equals
`round(quantity * p, 2)` for the pre-rounding fetched price `p`; the
claim's STORED-field equation
`current_value = round(quantity * current_price, 2)` holds whenever the
fetched price is already a 2-decimal value — in particular whenever the
price fetch succeeded, or the fallback `avg_buy_price` has at most two
decimals. -/
theorem C1_amended (env : MarketEnv) (data : Portfolio) (h0 : Holding)
    (hmem : h0 ∈ data.holdings)
    (hp : (get_latest_price env h0.ticker_symbol (effAvgBuyPrice h0)).2 = true ∨
      round2 (effAvgBuyPrice h0) = effAvgBuyPrice h0) :
    enrichHolding env h0 ∈ (enrich_portfolio env data).holdings ∧
    (enrichHolding env h0).current_value =
      round2 ((enrichHolding env h0).quantity *
        (enrichHolding env h0).current_price) := by
  refine ⟨mem_enriched_holdings env data h0 hmem, ?_⟩
  have hfp := round2_fetchedPrice env h0 hp
  show round2 (rawCurrentValue env h0) =
    round2 (h0.quantity * round2 (fetchedPrice env h0))
  rw [hfp]
  rfl

/-- C1 witness: fetch fails but the fallback buy price 50 is a 2-decimal
value, so the stored-field equation holds. -/
theorem C1_witness :
    enrichHolding env0 hW1 ∈
      (enrich_portfolio env0 (singletonPortfolio hW1)).holdings ∧
    (enrichHolding env0 hW1).current_value =
      round2 ((enrichHolding env0 hW1).quantity *
        (enrichHolding env0 hW1).current_price) :=
  C1_amended env0 (singletonPortfolio hW1) hW1 (by decide) (Or.inr (by decide))

/-! ## Claim C7: zero-denominator guards -/

/-- C7: if the effective average buy price (after the `buy_price`
coalescing the code performs) is zero, the stored `pnl_percentage` is 0
whatever the fetched price; and if the computed total investment is zero,
the stored `total_investment` and `total_pnl_percentage` are both 0.  Both
ratio computations are guarded, and every definition involved is total, so
no division fault can arise. -/
theorem C7_zero_guards (env : MarketEnv) (data : Portfolio) :
    (∀ h0 ∈ data.holdings, effAvgBuyPrice h0 = 0 →
      (enrichHolding env h0).pnl_percentage = 0) ∧
    ((data.holdings.map rawInvested).sum = 0 →
      (enrich_portfolio env data).total_investment = 0 ∧
      (enrich_portfolio env data).total_pnl_percentage = 0) := by
  constructor
  · intro h0 _ ha
    show round2 (if 0 < effAvgBuyPrice h0 then
      (fetchedPrice env h0 - effAvgBuyPrice h0) / effAvgBuyPrice h0 * 100
      else 0) = 0
    rw [ha, if_neg (lt_irrefl (0 : ℚ))]
    exact round2_zero
  · intro hs
    constructor
    · show round2 (data.holdings.map rawInvested).sum = 0
      rw [hs]
      exact round2_zero
    · show round2 (if 0 < (data.holdings.map rawInvested).sum then
        ((data.holdings.map (rawCurrentValue env)).sum -
            (data.holdings.map rawInvested).sum) /
          (data.holdings.map rawInvested).sum * 100
        else 0) = 0
      rw [hs, if_neg (lt_irrefl (0 : ℚ))]
      exact round2_zero

/-- C7 witness: a holding with zero average buy price and zero invested
value: its `pnl_percentage` and the portfolio totals are all 0. -/
theorem C7_witness :
    (enrichHolding env0 hW7).pnl_percentage = 0 ∧
    (enrich_portfolio env0 (singletonPortfolio hW7)).total_investment = 0 ∧
    (enrich_portfolio env0 (singletonPortfolio hW7)).total_pnl_percentage = 0 :=
  ⟨(C7_zero_guards env0 (singletonPortfolio hW7)).1 hW7 (by decide) (by decide),
   ((C7_zero_guards env0 (singletonPortfolio hW7)).2 (by decide)).1,
   ((C7_zero_guards env0 (singletonPortfolio hW7)).2 (by decide)).2⟩

/-! ## Claim C8: the stored `pnl_absolute` equation -/

/-- C8 counterexample: fetch failed with `avg_buy_price = 1.006`, input
`invested_value = 0.004`.  Stored `pnl_absolute = round(1.002, 2) = 1.0`,
but `round(current_value - invested_value, 2)` over the STORED fields is
`round(1.01 - 0.0, 2) = 1.01`. -/
theorem C8_counterexample :
    ¬ ∀ h ∈ (enrich_portfolio env0 pC8).holdings,
        h.pnl_absolute = round2 (h.current_value - h.invested_value) := by
  decide

/-- C8 (amended): the stored `pnl_absolute` always equals
`round(cv - iv, 2)` for the PRE-ROUNDING current and invested values
`cv`, `iv` (of which the stored fields are the 2-decimal roundings); the
claim's stored-field equation holds whenever those raw values are already
2-decimal quantities. -/
theorem C8_amended (env : MarketEnv) (data : Portfolio) (h0 : Holding)
    (hmem : h0 ∈ data.holdings)
    (hcv : round2 (rawCurrentValue env h0) = rawCurrentValue env h0)
    (hiv : round2 (rawInvested h0) = rawInvested h0) :
    enrichHolding env h0 ∈ (enrich_portfolio env data).holdings ∧
    (enrichHolding env h0).pnl_absolute =
      round2 ((enrichHolding env h0).current_value -
        (enrichHolding env h0).invested_value) := by
  refine ⟨mem_enriched_holdings env data h0 hmem, ?_⟩
  show round2 (rawCurrentValue env h0 - rawInvested h0) =
    round2 (round2 (rawCurrentValue env h0) - round2 (rawInvested h0))
  rw [hcv, hiv]

/-- C8 witness: fetch fails with 2-decimal fallback 50 and derived
invested value 100, both exact cents, so the stored-field equation holds. -/
theorem C8_witness :
    enrichHolding env0 hW8 ∈
      (enrich_portfolio env0 (singletonPortfolio hW8)).holdings ∧
    (enrichHolding env0 hW8).pnl_absolute =
      round2 ((enrichHolding env0 hW8).current_value -
        (enrichHolding env0 hW8).invested_value) :=
  C8_amended env0 (singletonPortfolio hW8) hW8 (by decide) (by decide) (by decide)

/-! ## Claim C10: frame of `enrich_portfolio` -/

/-- C10: enrichment preserves the number and order of holdings and never
touches the holding fields it does not write (`stock_name`, `isin`,
`ticker_symbol`, `sector`, `quantity`, `avg_buy_price`, `buy_price`), nor
any other portfolio entry (`extra`); it writes only the five per-holding
market fields and the four totals. -/
theorem C10_frame (env : MarketEnv) (data : Portfolio) :
    (enrich_portfolio env data).holdings.map frameFields =
      data.holdings.map frameFields ∧
    (enrich_portfolio env data).holdings.length = data.holdings.length ∧
    (enrich_portfolio env data).extra = data.extra := by
  refine ⟨?_, ?_, rfl⟩
  · show (data.holdings.map (enrichHolding env)).map frameFields =
      data.holdings.map frameFields
    rw [List.map_map]
    exact List.map_congr_left fun h _ => rfl
  · show (data.holdings.map (enrichHolding env)).length = data.holdings.length
    exact List.length_map _ _

end Lemmas

end AIPortfolio
